import Mathlib

/-!
Shallow embedding of the Unified Activity Feed Composer of this repository.

The embedded code is the chunked merge implementation of `FeedService.getFeed`
(the cursor/chunk-buffer variant) together with `FeedController.getFeed`.
The Prisma store is modelled as two in-memory lists of rows; `count` with a
`where` clause becomes the length of the filtered list, and `findMany` with
`orderBy createdAt desc, skip, take` becomes `drop skip / take n` over the
stored list (the stored lists play the role of the database's
createdAt-descending result order; all concrete stores used below are listed
in descending `createdAt` order).  `createdAt` (a timestamp) is modelled as
`Int`; JavaScript `Date` comparison is numeric comparison of the epoch value.

Every chunk fetch issued by the merge loop is additionally recorded in a
trace of `FetchEvent`s, so that claims about which fetches are issued
(exhaustion handling, the empty-feed early return) are statable.
-/

/-- The source kind tag (`type: 'review' | 'complaint'` in the code). -/
inductive Src where
  | review
  | complaint
deriving DecidableEq, Repr

/-- A review row, restricted to the fields the feed composer inspects:
`id`, `createdAt`, `status` and the related company's `category`. -/
structure Review where
  id : Nat
  createdAt : Int
  status : String
  category : String
deriving DecidableEq, Repr

/-- A complaint row, restricted to the fields the feed composer inspects. -/
structure Complaint where
  id : Nat
  createdAt : Int
  status : String
  category : String
deriving DecidableEq, Repr

/-- A tagged feed item, as produced by `.map((r) => ({...r, type: 'review'}))`
and its complaint counterpart; only the fields the merge inspects are kept. -/
structure FeedItem where
  type : Src
  id : Nat
  createdAt : Int
deriving DecidableEq, Repr

def Review.toItem (r : Review) : FeedItem :=
  { type := Src.review, id := r.id, createdAt := r.createdAt }

def Complaint.toItem (c : Complaint) : FeedItem :=
  { type := Src.complaint, id := c.id, createdAt := c.createdAt }

/-- The relational store: both collections, in the createdAt-descending
order in which `findMany` returns them. -/
structure DB where
  reviews : List Review
  complaints : List Complaint
deriving Repr

/-- `reviewWhere`: `{ status: 'APPROVED', ...(category && { company: { category } }) }`.
The spread adds the company-category condition only when `category` is
truthy (present and not the empty string). -/
def reviewPred (cat : Option String) (r : Review) : Bool :=
  r.status == "APPROVED" &&
    (match cat with
     | some c => if c.isEmpty then true else r.category == c
     | none => true)

/-- `complaintWhere`: `{ ...(category && { company: { category } }) }` — no
status condition at all. -/
def complaintPred (cat : Option String) (c : Complaint) : Bool :=
  match cat with
  | some s => if s.isEmpty then true else c.category == s
  | none => true

/-- The reviews matching the filter, in store (createdAt-descending) order. -/
def reviewsFor (db : DB) (cat : Option String) : List Review :=
  db.reviews.filter (reviewPred cat)

/-- The complaints matching the filter, in store order. -/
def complaintsFor (db : DB) (cat : Option String) : List Complaint :=
  db.complaints.filter (complaintPred cat)

/-- `fetchReviewChunk(skip)`: `findMany({where: reviewWhere, orderBy:
createdAt desc, skip, take: limit})`. -/
def fetchReviewChunk (db : DB) (cat : Option String) (limit skip : Nat) :
    List Review :=
  ((reviewsFor db cat).drop skip).take limit

/-- `fetchComplaintChunk(skip)`. -/
def fetchComplaintChunk (db : DB) (cat : Option String) (limit skip : Nat) :
    List Complaint :=
  ((complaintsFor db cat).drop skip).take limit

/-- One chunk fetch issued to a source: which source, at which skip, and how
many rows came back. -/
structure FetchEvent where
  src : Src
  skip : Nat
  got : Nat
deriving DecidableEq, Repr

/-- Result of the in-loop refill of one source's buffer. -/
structure RefillState where
  buf : List FeedItem
  skip : Nat
  trace : List FetchEvent
deriving Repr

/-- `if (reviewBuffer.length === 0) { reviewBuffer = await
fetchReviewChunk(reviewSkip)...; reviewSkip += reviewBuffer.length; }` -/
def refillReview (db : DB) (cat : Option String) (limit : Nat)
    (rb : List FeedItem) (rskip : Nat) (trace : List FetchEvent) :
    RefillState :=
  if rb.isEmpty then
    let chunk := (fetchReviewChunk db cat limit rskip).map Review.toItem
    { buf := chunk, skip := rskip + chunk.length,
      trace := trace ++ [⟨Src.review, rskip, chunk.length⟩] }
  else
    { buf := rb, skip := rskip, trace := trace }

/-- `if (complaintBuffer.length === 0) { ... }` -/
def refillComplaint (db : DB) (cat : Option String) (limit : Nat)
    (cb : List FeedItem) (cskip : Nat) (trace : List FetchEvent) :
    RefillState :=
  if cb.isEmpty then
    let chunk := (fetchComplaintChunk db cat limit cskip).map Complaint.toItem
    { buf := chunk, skip := cskip + chunk.length,
      trace := trace ++ [⟨Src.complaint, cskip, chunk.length⟩] }
  else
    { buf := cb, skip := cskip, trace := trace }

/-- The `while (merged.length < targetCount)` loop of `getFeed`, with the
mutable locals (`reviewBuffer`, `complaintBuffer`, `reviewSkip`,
`complaintSkip`, `merged`) passed as explicit state, plus the fetch trace.
Loop body, in source order: break if both buffers are empty; refill the
review buffer if empty; refill the complaint buffer if empty; break if both
are still empty; otherwise push the review head when
`nextReview && (!nextComplaint || nextReview.createdAt >
nextComplaint.createdAt)`, else push the complaint head. -/
def mergeLoop (db : DB) (cat : Option String) (limit targetCount : Nat)
    (rb cb : List FeedItem) (rskip cskip : Nat)
    (merged : List FeedItem) (trace : List FetchEvent) :
    List FeedItem × List FetchEvent :=
  if h : merged.length < targetCount then
    if rb.isEmpty && cb.isEmpty then (merged, trace)
    else
      let r1 := refillReview db cat limit rb rskip trace
      let c1 := refillComplaint db cat limit cb cskip r1.trace
      if r1.buf.isEmpty && c1.buf.isEmpty then (merged, c1.trace)
      else
        match r1.buf, c1.buf with
        | [], [] => (merged, c1.trace)
        | r :: rs, [] =>
            mergeLoop db cat limit targetCount rs [] r1.skip c1.skip
              (merged ++ [r]) c1.trace
        | [], c :: cs =>
            mergeLoop db cat limit targetCount [] cs r1.skip c1.skip
              (merged ++ [c]) c1.trace
        | r :: rs, c :: cs =>
            if r.createdAt > c.createdAt then
              mergeLoop db cat limit targetCount rs (c :: cs) r1.skip c1.skip
                (merged ++ [r]) c1.trace
            else
              mergeLoop db cat limit targetCount (r :: rs) cs r1.skip c1.skip
                (merged ++ [c]) c1.trace
  else (merged, trace)
termination_by targetCount - merged.length
decreasing_by
  all_goals simp [List.length_append]
  all_goals omega

/-- The initial chunk fetch of each source followed by the merge loop
(source lines: the two initial `fetch*Chunk(0)` calls, the skip updates,
and the `while` loop), returning the merged prefix and the fetch trace. -/
def runMerge (db : DB) (cat : Option String) (limit targetCount : Nat) :
    List FeedItem × List FetchEvent :=
  let rb0 := (fetchReviewChunk db cat limit 0).map Review.toItem
  let cb0 := (fetchComplaintChunk db cat limit 0).map Complaint.toItem
  mergeLoop db cat limit targetCount rb0 cb0 (0 + rb0.length) (0 + cb0.length)
    [] [⟨Src.review, 0, rb0.length⟩, ⟨Src.complaint, 0, cb0.length⟩]

/-- The `pagination` envelope `{page, limit, total, totalPages}`. -/
structure Pagination where
  page : Nat
  limit : Nat
  total : Nat
  totalPages : Nat
deriving DecidableEq, Repr

/-- The value returned by `FeedService.getFeed`. -/
structure FeedResult where
  items : List FeedItem
  pagination : Pagination
deriving DecidableEq, Repr

/-- `FeedService.getFeed(page, limit, category)` of the chunked merge
implementation, paired with the trace of every chunk fetch it issued.
`Math.ceil(total / limit)` is `(total + limit - 1) / limit` in exact
integer arithmetic (the two agree for every `limit ≥ 1`).  The slice
`merged.slice((page-1)*limit, page*limit)` is `drop` then `take`. -/
def getFeedWithTrace (db : DB) (page limit : Nat) (cat : Option String) :
    FeedResult × List FetchEvent :=
  let totalReviews := (reviewsFor db cat).length
  let totalComplaints := (complaintsFor db cat).length
  let total := totalReviews + totalComplaints
  if total = 0 then
    ({ items := [],
       pagination := { page := page, limit := limit, total := total,
                       totalPages := 0 } }, [])
  else
    let targetCount := page * limit
    let mt := runMerge db cat limit targetCount
    let items := (mt.1.drop ((page - 1) * limit)).take
      (page * limit - (page - 1) * limit)
    ({ items := items,
       pagination := { page := page, limit := limit, total := total,
                       totalPages := (total + limit - 1) / limit } }, mt.2)

/-- `FeedService.getFeed` proper (the request's visible result). -/
def getFeed (db : DB) (page limit : Nat) (cat : Option String) : FeedResult :=
  (getFeedWithTrace db page limit cat).1

/-- JavaScript `parseInt(s, 10)`: skip leading whitespace, read an optional
sign and then the longest decimal-digit prefix; `none` models `NaN`. -/
def parseIntJS (s : String) : Option Int :=
  let cs := s.data.dropWhile fun ch =>
    ch = ' ' || ch = '\t' || ch = '\n' || ch = '\r'
  let signRest : Int × List Char :=
    match cs with
    | '-' :: t => (-1, t)
    | '+' :: t => (1, t)
    | _ => (1, cs)
  let ds := signRest.2.takeWhile Char.isDigit
  if ds.isEmpty then none
  else
    some (signRest.1 *
      (ds.foldl (fun acc ch => acc * 10 + (ch.toNat - 48)) 0 : Nat))

/-- `FEED_LIMIT_MAX = 50`. -/
def FEED_LIMIT_MAX : Int := 50

/-- `FeedController.getFeed` argument handling: defaults `'1'`/`'20'` for
missing query parameters, `parseInt(x, 10) || fallback` (the `||` also
replaces a parsed `0`, which is falsy), then
`safePage = Math.max(1, parsedPage)` and
`safeLimit = Math.min(FEED_LIMIT_MAX, Math.max(1, parsedLimit))`. -/
def controllerArgs (pageQ limitQ : Option String) : Int × Int :=
  let page := pageQ.getD "1"
  let limit := limitQ.getD "20"
  let parsedPage : Int :=
    match parseIntJS page with
    | none => 1
    | some n => if n = 0 then 1 else n
  let parsedLimit : Int :=
    match parseIntJS limit with
    | none => 20
    | some n => if n = 0 then 20 else n
  let safePage := max 1 parsedPage
  let safeLimit := min FEED_LIMIT_MAX (max 1 parsedLimit)
  (safePage, safeLimit)

/-- The controller endpoint: clamp the raw query parameters and call the
service (`safePage ≥ 1` always, so `Int.toNat` is exact). -/
def controllerGetFeed (db : DB) (pageQ limitQ catQ : Option String) :
    FeedResult :=
  let args := controllerArgs pageQ limitQ
  getFeed db args.1.toNat args.2.toNat catQ

/-- The fixed source priority that the merge comparison realizes on
exact-timestamp ties: the strict `nextReview.createdAt > nextComplaint.createdAt`
test fails on a tie, so the complaint branch is taken — complaints before
reviews.  Item ids are never consulted, which coincides with ordering by
(source priority, id) whenever the two candidates come from distinct sources. -/
def srcPriority : Src → Nat
  | Src.complaint => 0
  | Src.review => 1

/-- Store with no rows at all. -/
def dbEmpty : DB := { reviews := [], complaints := [] }

/-- Store with a single approved review. -/
def dbSingleReview : DB :=
  { reviews := [{ id := 9, createdAt := 5, status := "APPROVED", category := "tech" }],
    complaints := [] }

/-- Store with a single complaint and no reviews. -/
def dbSingleComplaint : DB :=
  { reviews := [],
    complaints := [{ id := 7, createdAt := 5, status := "OPEN", category := "tech" }] }

/-- Store with three complaints and no reviews, createdAt descending. -/
def dbComplaintsOnly : DB :=
  { reviews := [],
    complaints :=
      [{ id := 1, createdAt := 3, status := "OPEN", category := "tech" },
       { id := 2, createdAt := 2, status := "OPEN", category := "tech" },
       { id := 3, createdAt := 1, status := "OPEN", category := "tech" }] }

/-- Store with four approved reviews (createdAt 4,3,2,1) and no complaints. -/
def dbFourReviews : DB :=
  { reviews :=
      [{ id := 1, createdAt := 4, status := "APPROVED", category := "tech" },
       { id := 2, createdAt := 3, status := "APPROVED", category := "tech" },
       { id := 3, createdAt := 2, status := "APPROVED", category := "tech" },
       { id := 4, createdAt := 1, status := "APPROVED", category := "tech" }],
    complaints := [] }

/-- Store with one approved review and one complaint sharing `createdAt`. -/
def dbTie : DB :=
  { reviews := [{ id := 1, createdAt := 5, status := "APPROVED", category := "tech" }],
    complaints := [{ id := 2, createdAt := 5, status := "OPEN", category := "tech" }] }

theorem mergeLoop_stop (db : DB) (cat : Option String) (limit targetCount : Nat)
    (rb cb : List FeedItem) (rskip cskip : Nat) (merged : List FeedItem)
    (trace : List FetchEvent) (h : ¬ merged.length < targetCount) :
    mergeLoop db cat limit targetCount rb cb rskip cskip merged trace = (merged, trace) := by
  unfold mergeLoop
  simp [h]

theorem mergeLoop_break1 (db : DB) (cat : Option String) (limit targetCount : Nat)
    (rb cb : List FeedItem) (rskip cskip : Nat) (merged : List FeedItem)
    (trace : List FetchEvent) (h : merged.length < targetCount)
    (hb : (rb.isEmpty && cb.isEmpty) = true) :
    mergeLoop db cat limit targetCount rb cb rskip cskip merged trace = (merged, trace) := by
  unfold mergeLoop
  simp only [Bool.and_eq_true] at hb
  simp [h, hb.1, hb.2]

theorem mergeLoop_break2 (db : DB) (cat : Option String) (limit targetCount : Nat)
    (rb cb : List FeedItem) (rskip cskip : Nat) (merged : List FeedItem)
    (trace : List FetchEvent) (h : merged.length < targetCount)
    (hb : ¬ (rb.isEmpty && cb.isEmpty) = true)
    (h2 : ((refillReview db cat limit rb rskip trace).buf.isEmpty &&
      (refillComplaint db cat limit cb cskip
        (refillReview db cat limit rb rskip trace).trace).buf.isEmpty) = true) :
    mergeLoop db cat limit targetCount rb cb rskip cskip merged trace =
      (merged, (refillComplaint db cat limit cb cskip
        (refillReview db cat limit rb rskip trace).trace).trace) := by
  conv_lhs => rw [mergeLoop]
  simp [h, hb, h2]

theorem mergeLoop_push_r (db : DB) (cat : Option String) (limit targetCount : Nat)
    (rb cb : List FeedItem) (rskip cskip : Nat) (merged : List FeedItem)
    (trace : List FetchEvent) (h : merged.length < targetCount)
    (hb : ¬ (rb.isEmpty && cb.isEmpty) = true)
    (r : FeedItem) (rs : List FeedItem)
    (hr : (refillReview db cat limit rb rskip trace).buf = r :: rs)
    (hc : (refillComplaint db cat limit cb cskip
      (refillReview db cat limit rb rskip trace).trace).buf = []) :
    mergeLoop db cat limit targetCount rb cb rskip cskip merged trace =
      mergeLoop db cat limit targetCount rs []
        (refillReview db cat limit rb rskip trace).skip
        (refillComplaint db cat limit cb cskip
          (refillReview db cat limit rb rskip trace).trace).skip
        (merged ++ [r])
        (refillComplaint db cat limit cb cskip
          (refillReview db cat limit rb rskip trace).trace).trace := by
  conv_lhs => rw [mergeLoop]
  simp [h, hb, hr, hc]

theorem mergeLoop_push_c_rempty (db : DB) (cat : Option String) (limit targetCount : Nat)
    (rb cb : List FeedItem) (rskip cskip : Nat) (merged : List FeedItem)
    (trace : List FetchEvent) (h : merged.length < targetCount)
    (hb : ¬ (rb.isEmpty && cb.isEmpty) = true)
    (c : FeedItem) (cs : List FeedItem)
    (hr : (refillReview db cat limit rb rskip trace).buf = [])
    (hc : (refillComplaint db cat limit cb cskip
      (refillReview db cat limit rb rskip trace).trace).buf = c :: cs) :
    mergeLoop db cat limit targetCount rb cb rskip cskip merged trace =
      mergeLoop db cat limit targetCount [] cs
        (refillReview db cat limit rb rskip trace).skip
        (refillComplaint db cat limit cb cskip
          (refillReview db cat limit rb rskip trace).trace).skip
        (merged ++ [c])
        (refillComplaint db cat limit cb cskip
          (refillReview db cat limit rb rskip trace).trace).trace := by
  conv_lhs => rw [mergeLoop]
  simp [h, hb, hr, hc]

theorem mergeLoop_push_r_gt (db : DB) (cat : Option String) (limit targetCount : Nat)
    (rb cb : List FeedItem) (rskip cskip : Nat) (merged : List FeedItem)
    (trace : List FetchEvent) (h : merged.length < targetCount)
    (hb : ¬ (rb.isEmpty && cb.isEmpty) = true)
    (r c : FeedItem) (rs cs : List FeedItem)
    (hr : (refillReview db cat limit rb rskip trace).buf = r :: rs)
    (hc : (refillComplaint db cat limit cb cskip
      (refillReview db cat limit rb rskip trace).trace).buf = c :: cs)
    (hgt : r.createdAt > c.createdAt) :
    mergeLoop db cat limit targetCount rb cb rskip cskip merged trace =
      mergeLoop db cat limit targetCount rs (c :: cs)
        (refillReview db cat limit rb rskip trace).skip
        (refillComplaint db cat limit cb cskip
          (refillReview db cat limit rb rskip trace).trace).skip
        (merged ++ [r])
        (refillComplaint db cat limit cb cskip
          (refillReview db cat limit rb rskip trace).trace).trace := by
  conv_lhs => rw [mergeLoop]
  simp [h, hb, hr, hc, hgt]

theorem mergeLoop_push_c_le (db : DB) (cat : Option String) (limit targetCount : Nat)
    (rb cb : List FeedItem) (rskip cskip : Nat) (merged : List FeedItem)
    (trace : List FetchEvent) (h : merged.length < targetCount)
    (hb : ¬ (rb.isEmpty && cb.isEmpty) = true)
    (r c : FeedItem) (rs cs : List FeedItem)
    (hr : (refillReview db cat limit rb rskip trace).buf = r :: rs)
    (hc : (refillComplaint db cat limit cb cskip
      (refillReview db cat limit rb rskip trace).trace).buf = c :: cs)
    (hle : ¬ r.createdAt > c.createdAt) :
    mergeLoop db cat limit targetCount rb cb rskip cskip merged trace =
      mergeLoop db cat limit targetCount (r :: rs) cs
        (refillReview db cat limit rb rskip trace).skip
        (refillComplaint db cat limit cb cskip
          (refillReview db cat limit rb rskip trace).trace).skip
        (merged ++ [c])
        (refillComplaint db cat limit cb cskip
          (refillReview db cat limit rb rskip trace).trace).trace := by
  conv_lhs => rw [mergeLoop]
  simp [h, hb, hr, hc, hle]

theorem mergeLoop_length_le (db : DB) (cat : Option String) (limit targetCount : Nat)
    (rb cb : List FeedItem) (rskip cskip : Nat) (merged : List FeedItem)
    (trace : List FetchEvent) (hm : merged.length ≤ targetCount) :
    (mergeLoop db cat limit targetCount rb cb rskip cskip merged trace).1.length ≤ targetCount := by
  revert hm
  induction rb, cb, rskip, cskip, merged, trace using mergeLoop.induct db cat limit targetCount with
  | case1 rb cb rskip cskip merged trace hlt hb =>
    intro hm
    rw [mergeLoop_break1 db cat limit targetCount rb cb rskip cskip merged trace hlt hb]
    exact hm
  | case2 rb cb rskip cskip merged trace hlt hb r1 c1 h2 =>
    intro hm
    rw [mergeLoop_break2 db cat limit targetCount rb cb rskip cskip merged trace hlt hb h2]
    exact hm
  | case3 rb cb rskip cskip merged trace hlt hb r1 c1 h2 hc hr =>
    intro hm
    simp [hr, hc] at h2
  | case4 rb cb rskip cskip merged trace hlt hb r1 c1 h2 r rs hc hr ih =>
    intro hm
    rw [mergeLoop_push_r db cat limit targetCount rb cb rskip cskip merged trace hlt hb r rs hr hc]
    exact ih (by simp; omega)
  | case5 rb cb rskip cskip merged trace hlt hb r1 c1 h2 c cs hc hr ih =>
    intro hm
    rw [mergeLoop_push_c_rempty db cat limit targetCount rb cb rskip cskip merged trace hlt hb c cs hr hc]
    exact ih (by simp; omega)
  | case6 rb cb rskip cskip merged trace hlt hb r1 c1 h2 r rs c cs hc hr hgt ih =>
    intro hm
    rw [mergeLoop_push_r_gt db cat limit targetCount rb cb rskip cskip merged trace hlt hb r c rs cs hr hc hgt]
    exact ih (by simp; omega)
  | case7 rb cb rskip cskip merged trace hlt hb r1 c1 h2 r rs c cs hc hr hle ih =>
    intro hm
    rw [mergeLoop_push_c_le db cat limit targetCount rb cb rskip cskip merged trace hlt hb r c rs cs hr hc hle]
    exact ih (by simp; omega)
  | case8 rb cb rskip cskip merged trace hlt =>
    intro hm
    rw [mergeLoop_stop db cat limit targetCount rb cb rskip cskip merged trace hlt]
    exact hm

theorem refillReview_budget (db : DB) (cat : Option String) (limit : Nat)
    (rb : List FeedItem) (rskip : Nat) (trace : List FetchEvent) :
    (refillReview db cat limit rb rskip trace).buf.length +
      ((reviewsFor db cat).length - (refillReview db cat limit rb rskip trace).skip) ≤
    rb.length + ((reviewsFor db cat).length - rskip) := by
  unfold refillReview
  split
  · simp [fetchReviewChunk]
    omega
  · exact le_refl _

theorem refillComplaint_budget (db : DB) (cat : Option String) (limit : Nat)
    (cb : List FeedItem) (cskip : Nat) (trace : List FetchEvent) :
    (refillComplaint db cat limit cb cskip trace).buf.length +
      ((complaintsFor db cat).length - (refillComplaint db cat limit cb cskip trace).skip) ≤
    cb.length + ((complaintsFor db cat).length - cskip) := by
  unfold refillComplaint
  split
  · simp [fetchComplaintChunk]
    omega
  · exact le_refl _


theorem mergeLoop_length_budget (db : DB) (cat : Option String) (limit targetCount : Nat)
    (rb cb : List FeedItem) (rskip cskip : Nat) (merged : List FeedItem)
    (trace : List FetchEvent) :
    (mergeLoop db cat limit targetCount rb cb rskip cskip merged trace).1.length ≤
      merged.length + rb.length + ((reviewsFor db cat).length - rskip) +
        cb.length + ((complaintsFor db cat).length - cskip) := by
  induction rb, cb, rskip, cskip, merged, trace using mergeLoop.induct db cat limit targetCount with
  | case1 rb cb rskip cskip merged trace hlt hb =>
    rw [mergeLoop_break1 db cat limit targetCount rb cb rskip cskip merged trace hlt hb]
    show merged.length ≤ _
    omega
  | case2 rb cb rskip cskip merged trace hlt hb r1 c1 hbb =>
    rw [mergeLoop_break2 db cat limit targetCount rb cb rskip cskip merged trace hlt hb hbb]
    show merged.length ≤ _
    omega
  | case3 rb cb rskip cskip merged trace hlt hb r1 c1 hbb hc hr =>
    simp [hr, hc] at hbb
  | case4 rb cb rskip cskip merged trace hlt hb r1 c1 hbb r rs hc hr ih =>
    rw [mergeLoop_push_r db cat limit targetCount rb cb rskip cskip merged trace hlt hb r rs hr hc]
    unfold_let r1 c1 at ih hr hc
    refine le_trans ih ?_
    have h1 := refillReview_budget db cat limit rb rskip trace
    have h2 := refillComplaint_budget db cat limit cb cskip
      (refillReview db cat limit rb rskip trace).trace
    have h3 : (refillReview db cat limit rb rskip trace).buf.length = rs.length + 1 := by
      simp [hr]
    have h4 : (refillComplaint db cat limit cb cskip
        (refillReview db cat limit rb rskip trace).trace).buf.length = 0 := by
      simp [hc]
    simp only [List.length_append, List.length_cons, List.length_nil]
    omega
  | case5 rb cb rskip cskip merged trace hlt hb r1 c1 hbb c cs hc hr ih =>
    rw [mergeLoop_push_c_rempty db cat limit targetCount rb cb rskip cskip merged trace hlt hb c cs hr hc]
    unfold_let r1 c1 at ih hr hc
    refine le_trans ih ?_
    have h1 := refillReview_budget db cat limit rb rskip trace
    have h2 := refillComplaint_budget db cat limit cb cskip
      (refillReview db cat limit rb rskip trace).trace
    have h3 : (refillReview db cat limit rb rskip trace).buf.length = 0 := by
      simp [hr]
    have h4 : (refillComplaint db cat limit cb cskip
        (refillReview db cat limit rb rskip trace).trace).buf.length = cs.length + 1 := by
      simp [hc]
    simp only [List.length_append, List.length_cons, List.length_nil]
    omega
  | case6 rb cb rskip cskip merged trace hlt hb r1 c1 hbb r rs c cs hc hr hgt ih =>
    rw [mergeLoop_push_r_gt db cat limit targetCount rb cb rskip cskip merged trace hlt hb r c rs cs hr hc hgt]
    unfold_let r1 c1 at ih hr hc
    refine le_trans ih ?_
    have h1 := refillReview_budget db cat limit rb rskip trace
    have h2 := refillComplaint_budget db cat limit cb cskip
      (refillReview db cat limit rb rskip trace).trace
    have h3 : (refillReview db cat limit rb rskip trace).buf.length = rs.length + 1 := by
      simp [hr]
    have h4 : (refillComplaint db cat limit cb cskip
        (refillReview db cat limit rb rskip trace).trace).buf.length = cs.length + 1 := by
      simp [hc]
    simp only [List.length_append, List.length_cons, List.length_nil]
    omega
  | case7 rb cb rskip cskip merged trace hlt hb r1 c1 hbb r rs c cs hc hr hle ih =>
    rw [mergeLoop_push_c_le db cat limit targetCount rb cb rskip cskip merged trace hlt hb r c rs cs hr hc hle]
    unfold_let r1 c1 at ih hr hc
    refine le_trans ih ?_
    have h1 := refillReview_budget db cat limit rb rskip trace
    have h2 := refillComplaint_budget db cat limit cb cskip
      (refillReview db cat limit rb rskip trace).trace
    have h3 : (refillReview db cat limit rb rskip trace).buf.length = rs.length + 1 := by
      simp [hr]
    have h4 : (refillComplaint db cat limit cb cskip
        (refillReview db cat limit rb rskip trace).trace).buf.length = cs.length + 1 := by
      simp [hc]
    simp only [List.length_append, List.length_cons, List.length_nil]
    omega
  | case8 rb cb rskip cskip merged trace hlt =>
    rw [mergeLoop_stop db cat limit targetCount rb cb rskip cskip merged trace hlt]
    show merged.length ≤ _
    omega

theorem fetchReviewChunk_map_subset (db : DB) (cat : Option String) (limit skip : Nat) :
    (fetchReviewChunk db cat limit skip).map Review.toItem ⊆
      (reviewsFor db cat).map Review.toItem := by
  intro x hx
  exact (((List.take_sublist _ _).trans (List.drop_sublist _ _)).map Review.toItem).subset hx

theorem fetchComplaintChunk_map_subset (db : DB) (cat : Option String) (limit skip : Nat) :
    (fetchComplaintChunk db cat limit skip).map Complaint.toItem ⊆
      (complaintsFor db cat).map Complaint.toItem := by
  intro x hx
  exact (((List.take_sublist _ _).trans (List.drop_sublist _ _)).map Complaint.toItem).subset hx

theorem refillReview_buf_mem (db : DB) (cat : Option String) (limit : Nat)
    (rb : List FeedItem) (rskip : Nat) (trace : List FetchEvent) :
    ∀ x ∈ (refillReview db cat limit rb rskip trace).buf,
      x ∈ rb ∨ x ∈ (reviewsFor db cat).map Review.toItem := by
  unfold refillReview
  split
  · intro x hx
    exact Or.inr (fetchReviewChunk_map_subset db cat limit rskip hx)
  · intro x hx
    exact Or.inl hx

theorem refillComplaint_buf_mem (db : DB) (cat : Option String) (limit : Nat)
    (cb : List FeedItem) (cskip : Nat) (trace : List FetchEvent) :
    ∀ x ∈ (refillComplaint db cat limit cb cskip trace).buf,
      x ∈ cb ∨ x ∈ (complaintsFor db cat).map Complaint.toItem := by
  unfold refillComplaint
  split
  · intro x hx
    exact Or.inr (fetchComplaintChunk_map_subset db cat limit cskip hx)
  · intro x hx
    exact Or.inl hx

theorem mergeLoop_mem (db : DB) (cat : Option String) (limit targetCount : Nat)
    (rb cb : List FeedItem) (rskip cskip : Nat) (merged : List FeedItem)
    (trace : List FetchEvent) :
    ∀ x ∈ (mergeLoop db cat limit targetCount rb cb rskip cskip merged trace).1,
      x ∈ merged ∨ x ∈ rb ∨ x ∈ cb ∨
        x ∈ (reviewsFor db cat).map Review.toItem ∨
        x ∈ (complaintsFor db cat).map Complaint.toItem := by
  induction rb, cb, rskip, cskip, merged, trace using mergeLoop.induct db cat limit targetCount with
  | case1 rb cb rskip cskip merged trace hlt hb =>
    rw [mergeLoop_break1 db cat limit targetCount rb cb rskip cskip merged trace hlt hb]
    intro x hx
    exact Or.inl hx
  | case2 rb cb rskip cskip merged trace hlt hb r1 c1 hbb =>
    rw [mergeLoop_break2 db cat limit targetCount rb cb rskip cskip merged trace hlt hb hbb]
    intro x hx
    exact Or.inl hx
  | case3 rb cb rskip cskip merged trace hlt hb r1 c1 hbb hc hr =>
    simp [hr, hc] at hbb
  | case4 rb cb rskip cskip merged trace hlt hb r1 c1 hbb r rs hc hr ih =>
    rw [mergeLoop_push_r db cat limit targetCount rb cb rskip cskip merged trace hlt hb r rs hr hc]
    unfold_let r1 c1 at ih hr hc
    intro x hx
    rcases ih x hx with h | h | h | h | h
    · rcases List.mem_append.mp h with h1 | h1
      · exact Or.inl h1
      · have hxr : x ∈ (refillReview db cat limit rb rskip trace).buf := by
          rw [hr]
          exact List.mem_cons.mpr (Or.inl (by simpa using h1))
        rcases refillReview_buf_mem db cat limit rb rskip trace x hxr with h2 | h2
        · exact Or.inr (Or.inl h2)
        · exact Or.inr (Or.inr (Or.inr (Or.inl h2)))
    · have hxr : x ∈ (refillReview db cat limit rb rskip trace).buf := by
        rw [hr]
        exact List.mem_cons_of_mem r h
      rcases refillReview_buf_mem db cat limit rb rskip trace x hxr with h2 | h2
      · exact Or.inr (Or.inl h2)
      · exact Or.inr (Or.inr (Or.inr (Or.inl h2)))
    · simp at h
    · exact Or.inr (Or.inr (Or.inr (Or.inl h)))
    · exact Or.inr (Or.inr (Or.inr (Or.inr h)))
  | case5 rb cb rskip cskip merged trace hlt hb r1 c1 hbb c cs hc hr ih =>
    rw [mergeLoop_push_c_rempty db cat limit targetCount rb cb rskip cskip merged trace hlt hb c cs hr hc]
    unfold_let r1 c1 at ih hr hc
    intro x hx
    rcases ih x hx with h | h | h | h | h
    · rcases List.mem_append.mp h with h1 | h1
      · exact Or.inl h1
      · have hxc : x ∈ (refillComplaint db cat limit cb cskip
            (refillReview db cat limit rb rskip trace).trace).buf := by
          rw [hc]
          exact List.mem_cons.mpr (Or.inl (by simpa using h1))
        rcases refillComplaint_buf_mem db cat limit cb cskip
            (refillReview db cat limit rb rskip trace).trace x hxc with h2 | h2
        · exact Or.inr (Or.inr (Or.inl h2))
        · exact Or.inr (Or.inr (Or.inr (Or.inr h2)))
    · simp at h
    · have hxc : x ∈ (refillComplaint db cat limit cb cskip
          (refillReview db cat limit rb rskip trace).trace).buf := by
        rw [hc]
        exact List.mem_cons_of_mem c h
      rcases refillComplaint_buf_mem db cat limit cb cskip
          (refillReview db cat limit rb rskip trace).trace x hxc with h2 | h2
      · exact Or.inr (Or.inr (Or.inl h2))
      · exact Or.inr (Or.inr (Or.inr (Or.inr h2)))
    · exact Or.inr (Or.inr (Or.inr (Or.inl h)))
    · exact Or.inr (Or.inr (Or.inr (Or.inr h)))
  | case6 rb cb rskip cskip merged trace hlt hb r1 c1 hbb r rs c cs hc hr hgt ih =>
    rw [mergeLoop_push_r_gt db cat limit targetCount rb cb rskip cskip merged trace hlt hb r c rs cs hr hc hgt]
    unfold_let r1 c1 at ih hr hc
    intro x hx
    rcases ih x hx with h | h | h | h | h
    · rcases List.mem_append.mp h with h1 | h1
      · exact Or.inl h1
      · have hxr : x ∈ (refillReview db cat limit rb rskip trace).buf := by
          rw [hr]
          exact List.mem_cons.mpr (Or.inl (by simpa using h1))
        rcases refillReview_buf_mem db cat limit rb rskip trace x hxr with h2 | h2
        · exact Or.inr (Or.inl h2)
        · exact Or.inr (Or.inr (Or.inr (Or.inl h2)))
    · have hxr : x ∈ (refillReview db cat limit rb rskip trace).buf := by
        rw [hr]
        exact List.mem_cons_of_mem r h
      rcases refillReview_buf_mem db cat limit rb rskip trace x hxr with h2 | h2
      · exact Or.inr (Or.inl h2)
      · exact Or.inr (Or.inr (Or.inr (Or.inl h2)))
    · have hxc : x ∈ (refillComplaint db cat limit cb cskip
          (refillReview db cat limit rb rskip trace).trace).buf := by
        rw [hc]
        exact h
      rcases refillComplaint_buf_mem db cat limit cb cskip
          (refillReview db cat limit rb rskip trace).trace x hxc with h2 | h2
      · exact Or.inr (Or.inr (Or.inl h2))
      · exact Or.inr (Or.inr (Or.inr (Or.inr h2)))
    · exact Or.inr (Or.inr (Or.inr (Or.inl h)))
    · exact Or.inr (Or.inr (Or.inr (Or.inr h)))
  | case7 rb cb rskip cskip merged trace hlt hb r1 c1 hbb r rs c cs hc hr hle ih =>
    rw [mergeLoop_push_c_le db cat limit targetCount rb cb rskip cskip merged trace hlt hb r c rs cs hr hc hle]
    unfold_let r1 c1 at ih hr hc
    intro x hx
    rcases ih x hx with h | h | h | h | h
    · rcases List.mem_append.mp h with h1 | h1
      · exact Or.inl h1
      · have hxc : x ∈ (refillComplaint db cat limit cb cskip
            (refillReview db cat limit rb rskip trace).trace).buf := by
          rw [hc]
          exact List.mem_cons.mpr (Or.inl (by simpa using h1))
        rcases refillComplaint_buf_mem db cat limit cb cskip
            (refillReview db cat limit rb rskip trace).trace x hxc with h2 | h2
        · exact Or.inr (Or.inr (Or.inl h2))
        · exact Or.inr (Or.inr (Or.inr (Or.inr h2)))
    · have hxr : x ∈ (refillReview db cat limit rb rskip trace).buf := by
        rw [hr]
        exact h
      rcases refillReview_buf_mem db cat limit rb rskip trace x hxr with h2 | h2
      · exact Or.inr (Or.inl h2)
      · exact Or.inr (Or.inr (Or.inr (Or.inl h2)))
    · have hxc : x ∈ (refillComplaint db cat limit cb cskip
          (refillReview db cat limit rb rskip trace).trace).buf := by
        rw [hc]
        exact List.mem_cons_of_mem c h
      rcases refillComplaint_buf_mem db cat limit cb cskip
          (refillReview db cat limit rb rskip trace).trace x hxc with h2 | h2
      · exact Or.inr (Or.inr (Or.inl h2))
      · exact Or.inr (Or.inr (Or.inr (Or.inr h2)))
    · exact Or.inr (Or.inr (Or.inr (Or.inl h)))
    · exact Or.inr (Or.inr (Or.inr (Or.inr h)))
  | case8 rb cb rskip cskip merged trace hlt =>
    rw [mergeLoop_stop db cat limit targetCount rb cb rskip cskip merged trace hlt]
    intro x hx
    exact Or.inl hx

theorem getFeed_pagination (db : DB) (page limit : Nat) (cat : Option String) :
    (getFeed db page limit cat).pagination =
      { page := page, limit := limit,
        total := (reviewsFor db cat).length + (complaintsFor db cat).length,
        totalPages :=
          if (reviewsFor db cat).length + (complaintsFor db cat).length = 0 then 0
          else ((reviewsFor db cat).length + (complaintsFor db cat).length + limit - 1) / limit } := by
  by_cases h : (reviewsFor db cat).length + (complaintsFor db cat).length = 0
  · simp [getFeed, getFeedWithTrace, h]
  · simp [getFeed, getFeedWithTrace, h]

theorem getFeed_items_mem (db : DB) (page limit : Nat) (cat : Option String) :
    ∀ x ∈ (getFeed db page limit cat).items,
      x ∈ (reviewsFor db cat).map Review.toItem ∨
        x ∈ (complaintsFor db cat).map Complaint.toItem := by
  by_cases h : (reviewsFor db cat).length + (complaintsFor db cat).length = 0
  · simp [getFeed, getFeedWithTrace, h]
  · intro x hx
    have hx2 : x ∈ (runMerge db cat limit (page * limit)).1 := by
      simp only [getFeed, getFeedWithTrace, h, if_false] at hx
      exact List.mem_of_mem_drop (List.mem_of_mem_take hx)
    unfold runMerge at hx2
    rcases mergeLoop_mem db cat limit (page * limit) _ _ _ _ _ _ x hx2 with
      h1 | h1 | h1 | h1 | h1
    · simp at h1
    · exact Or.inl (fetchReviewChunk_map_subset db cat limit 0 h1)
    · exact Or.inr (fetchComplaintChunk_map_subset db cat limit 0 h1)
    · exact Or.inl h1
    · exact Or.inr h1

theorem ceil_bounds (t limit : Nat) (hl : 1 ≤ limit) :
    t ≤ (if t = 0 then 0 else (t + limit - 1) / limit) * limit ∧
    (if t = 0 then 0 else (t + limit - 1) / limit) * limit < t + limit := by
  split
  · rename_i h
    subst h
    simp
    omega
  · have h1 := Nat.div_add_mod (t + limit - 1) limit
    have h2 := Nat.mod_lt (t + limit - 1) (show 0 < limit by omega)
    have h3 : (t + limit - 1) / limit * limit = limit * ((t + limit - 1) / limit) :=
      Nat.mul_comm _ _
    rw [h3]
    omega

/-- C2: when the two head candidates carry identical `createdAt`, the merge
always emits the complaint first: the strict `>` comparison realizes the
fixed source priority (complaints before reviews), and item ids are never
reached — which agrees with priority-then-id ordering whenever the two
candidates come from distinct sources.  Together with purity of the
embedding this makes the relative order of equal-timestamp items identical
across repeated runs with unchanged data. -/
theorem getFeed_tie_break_fixed_priority (db : DB) (cat : Option String)
    (limit targetCount : Nat) (r c : FeedItem) (rs cs : List FeedItem)
    (rskip cskip : Nat) (merged : List FeedItem) (trace : List FetchEvent)
    (hr : r.type = Src.review) (hc : c.type = Src.complaint)
    (heq : r.createdAt = c.createdAt) (hm : merged.length < targetCount) :
    mergeLoop db cat limit targetCount (r :: rs) (c :: cs) rskip cskip merged trace =
      mergeLoop db cat limit targetCount (r :: rs) cs rskip cskip (merged ++ [c]) trace
    ∧ srcPriority c.type < srcPriority r.type := by
  constructor
  · have h1 : refillReview db cat limit (r :: rs) rskip trace =
        { buf := r :: rs, skip := rskip, trace := trace } := by
      unfold refillReview
      simp
    have h2 : refillComplaint db cat limit (c :: cs) cskip trace =
        { buf := c :: cs, skip := cskip, trace := trace } := by
      unfold refillComplaint
      simp
    have hstep := mergeLoop_push_c_le db cat limit targetCount (r :: rs) (c :: cs)
      rskip cskip merged trace hm (by simp) r c rs cs
      (by simp [h1]) (by simp [h1, h2]) (by simp [heq])
    simpa [h1, h2] using hstep
  · rw [hr, hc]
    decide

/-- C3: `getFeed` is a pure function of the store snapshot and its
arguments: two calls with identical `(page, limit, category)` against
unchanged data return identical results — items, pagination envelope and
even the fetch trace.  In the embedding the absence of any other input is
exactly what the statement captures. -/
theorem getFeed_deterministic (db : DB) (page1 limit1 page2 limit2 : Nat)
    (cat1 cat2 : Option String) (hp : page1 = page2) (hl : limit1 = limit2)
    (hcat : cat1 = cat2) :
    getFeedWithTrace db page1 limit1 cat1 = getFeedWithTrace db page2 limit2 cat2 := by
  rw [hp, hl, hcat]

/-- C5 (amended): `getFeed` does not validate its arguments: for `page = 0`
(below the documented minimum) and any `limit ≥ 1` it silently returns a
result whose item window is empty and whose envelope echoes the unclamped
page. -/
theorem getFeed_invalid_page_no_error (db : DB) (limit : Nat) (cat : Option String)
    (hl : 1 ≤ limit) :
    (getFeed db 0 limit cat).items = [] ∧ (getFeed db 0 limit cat).pagination.page = 0 := by
  constructor
  · by_cases h : (reviewsFor db cat).length + (complaintsFor db cat).length = 0
    · simp [getFeed, getFeedWithTrace, h]
    · simp [getFeed, getFeedWithTrace, h]
  · rw [getFeed_pagination]

/-- C6: when both sources count zero items under the filter, `getFeed`
returns an empty item sequence with `total = 0` and `totalPages = 0`, and
the fetch trace is empty — the merge engine is never driven. -/
theorem getFeed_empty_sources (db : DB) (page limit : Nat) (cat : Option String)
    (h0 : (reviewsFor db cat).length = 0 ∧ (complaintsFor db cat).length = 0) :
    getFeedWithTrace db page limit cat =
      ({ items := [],
         pagination := { page := page, limit := limit, total := 0, totalPages := 0 } }, []) := by
  unfold getFeedWithTrace
  simp [h0.1, h0.2]

/-- C7: `pagination.total` is the sum of the review count and the complaint
count under the given filter, and `totalPages` is exactly `⌈total / limit⌉`
for every `limit ≥ 1`, characterized by
`total ≤ totalPages * limit < total + limit`. -/
theorem getFeed_pagination_correct (db : DB) (page limit : Nat) (cat : Option String)
    (hl : 1 ≤ limit) :
    (getFeed db page limit cat).pagination.total =
        (reviewsFor db cat).length + (complaintsFor db cat).length
    ∧ (getFeed db page limit cat).pagination.total ≤
        (getFeed db page limit cat).pagination.totalPages * limit
    ∧ (getFeed db page limit cat).pagination.totalPages * limit <
        (getFeed db page limit cat).pagination.total + limit := by
  rw [getFeed_pagination]
  have hb := ceil_bounds ((reviewsFor db cat).length + (complaintsFor db cat).length) limit hl
  exact ⟨rfl, hb.1, hb.2⟩

/-- C8: for every `page ≥ 1`, `limit ≥ 1` and filter, the merge-and-collect
loop performs at most `page * limit` pushes (its merged output is no longer
than `page * limit`) and the merged output is bounded by the sum of the two
source counts at request time.  The loop itself is total — `mergeLoop` is
defined by well-founded recursion on `targetCount - merged.length` — so it
cannot run forever even when chunk fetches return empty sequences. -/
theorem getFeed_merge_bounded (db : DB) (cat : Option String) (page limit : Nat)
    (hp : 1 ≤ page) (hl : 1 ≤ limit) :
    (runMerge db cat limit (page * limit)).1.length ≤ page * limit
    ∧ (runMerge db cat limit (page * limit)).1.length ≤
        (reviewsFor db cat).length + (complaintsFor db cat).length := by
  constructor
  · unfold runMerge
    exact mergeLoop_length_le db cat limit (page * limit) _ _ _ _ _ _ (by simp)
  · unfold runMerge
    refine le_trans (mergeLoop_length_budget db cat limit (page * limit) _ _ _ _ _ _) ?_
    have h1 : ((fetchReviewChunk db cat limit 0).map Review.toItem).length ≤
        (reviewsFor db cat).length := by
      simp [fetchReviewChunk]
    have h2 : ((fetchComplaintChunk db cat limit 0).map Complaint.toItem).length ≤
        (complaintsFor db cat).length := by
      simp [fetchComplaintChunk]
    simp only [List.length_nil]
    omega

theorem reviewPred_status (cat : Option String) (r : Review)
    (h : reviewPred cat r = true) : r.status = "APPROVED" := by
  unfold reviewPred at h
  simp only [Bool.and_eq_true, beq_iff_eq] at h
  exact h.1

theorem complaintPred_status_irrelevant (cat : Option String) (c : Complaint)
    (s : String) :
    complaintPred cat { c with status := s } = complaintPred cat c := by
  cases cat <;> rfl

/-- C9: every review item served by `getFeed` comes from a stored review
with status APPROVED (the review filter implies APPROVED, and the count uses
the same filter), while complaints are served and counted with a filter that
never inspects their status — for every page, limit and category filter. -/
theorem getFeed_reviews_approved_complaints_any (db : DB) (page limit : Nat)
    (cat : Option String) (x : FeedItem)
    (hx : x ∈ (getFeed db page limit cat).items) :
    (x.type = Src.review →
        ∃ r, r ∈ db.reviews ∧ r.status = "APPROVED" ∧ reviewPred cat r = true ∧
          Review.toItem r = x)
    ∧ (x.type = Src.complaint →
        ∃ c, c ∈ db.complaints ∧ complaintPred cat c = true ∧ Complaint.toItem c = x)
    ∧ (getFeed db page limit cat).pagination.total =
        (db.reviews.filter (reviewPred cat)).length +
          (db.complaints.filter (complaintPred cat)).length
    ∧ (∀ r : Review, reviewPred cat r = true → r.status = "APPROVED")
    ∧ (∀ (c : Complaint) (s : String),
        complaintPred cat { c with status := s } = complaintPred cat c) := by
  have hmem := getFeed_items_mem db page limit cat x hx
  refine ⟨?_, ?_, ?_, fun r h => reviewPred_status cat r h,
    fun c s => complaintPred_status_irrelevant cat c s⟩
  · intro hty
    rcases hmem with h | h
    · rcases List.mem_map.mp h with ⟨r, hrmem, hrx⟩
      have hf := List.mem_filter.mp hrmem
      exact ⟨r, hf.1, reviewPred_status cat r hf.2, hf.2, hrx⟩
    · exfalso
      rcases List.mem_map.mp h with ⟨c, _, hcx⟩
      rw [← hcx] at hty
      simp [Complaint.toItem] at hty
  · intro hty
    rcases hmem with h | h
    · exfalso
      rcases List.mem_map.mp h with ⟨r, _, hrx⟩
      rw [← hrx] at hty
      simp [Review.toItem] at hty
    · rcases List.mem_map.mp h with ⟨c, hcmem, hcx⟩
      have hf := List.mem_filter.mp hcmem
      exact ⟨c, hf.1, hf.2, hcx⟩
  · rw [getFeed_pagination]
    exact rfl

/-- C10: for every raw query-string input, the controller hands the service
a page ≥ 1 and a limit in [1, 50]: a missing or unparseable page defaults
to 1, a missing or unparseable limit defaults to 20, page is clamped below
at 1 and limit is clamped into [1, 50]; the service receives exactly those
clamped values. -/
theorem controller_clamps_args (db : DB) (pageQ limitQ catQ : Option String) :
    1 ≤ (controllerArgs pageQ limitQ).1
    ∧ 1 ≤ (controllerArgs pageQ limitQ).2
    ∧ (controllerArgs pageQ limitQ).2 ≤ 50
    ∧ (parseIntJS (pageQ.getD "1") = none → (controllerArgs pageQ limitQ).1 = 1)
    ∧ (parseIntJS (limitQ.getD "20") = none → (controllerArgs pageQ limitQ).2 = 20)
    ∧ (pageQ = none → (controllerArgs pageQ limitQ).1 = 1)
    ∧ (limitQ = none → (controllerArgs pageQ limitQ).2 = 20)
    ∧ controllerGetFeed db pageQ limitQ catQ =
        getFeed db (controllerArgs pageQ limitQ).1.toNat
          (controllerArgs pageQ limitQ).2.toNat catQ
    ∧ 1 ≤ (controllerArgs pageQ limitQ).1.toNat
    ∧ 1 ≤ (controllerArgs pageQ limitQ).2.toNat
    ∧ (controllerArgs pageQ limitQ).2.toNat ≤ 50 := by
  have hbounds : 1 ≤ (controllerArgs pageQ limitQ).1
      ∧ 1 ≤ (controllerArgs pageQ limitQ).2
      ∧ (controllerArgs pageQ limitQ).2 ≤ 50 := by
    unfold controllerArgs FEED_LIMIT_MAX
    exact ⟨le_max_left 1 _, le_min (by norm_num) (le_max_left 1 _), min_le_left _ _⟩
  have hpn : parseIntJS (pageQ.getD "1") = none →
      (controllerArgs pageQ limitQ).1 = 1 := by
    intro h
    unfold controllerArgs
    simp [h]
  have hln : parseIntJS (limitQ.getD "20") = none →
      (controllerArgs pageQ limitQ).2 = 20 := by
    intro h
    unfold controllerArgs FEED_LIMIT_MAX
    simp [h]
  have hpd : pageQ = none → (controllerArgs pageQ limitQ).1 = 1 := by
    intro h
    subst h
    have hp1 : parseIntJS "1" = some 1 := by decide
    unfold controllerArgs
    simp [hp1]
  have hld : limitQ = none → (controllerArgs pageQ limitQ).2 = 20 := by
    intro h
    subst h
    have hp20 : parseIntJS "20" = some 20 := by decide
    unfold controllerArgs FEED_LIMIT_MAX
    simp [hp20]
  refine ⟨hbounds.1, hbounds.2.1, hbounds.2.2, hpn, hln, hpd, hld, rfl, ?_, ?_, ?_⟩
  · omega
  · omega
  · omega

/-- C1: the claim that concatenating the items of `getFeed(page, limit, filter)`
for `page = 1..totalPages` yields every matching item exactly once in
descending `createdAt` order fails on the code: with four approved reviews,
no complaints and `limit = 2`, `totalPages` is 2 but page 2 comes back empty —
the loop breaks when both buffers are empty at the top of an iteration
(complaint source exhausted, review buffer at a chunk boundary) before
refilling — so the concatenation of all pages contains only 2 of the 4
matching items. -/
theorem getFeed_pages_drop_items :
    (getFeed dbFourReviews 2 2 none).items = []
    ∧ (getFeed dbFourReviews 1 2 none).items ++ (getFeed dbFourReviews 2 2 none).items =
        [{ type := Src.review, id := 1, createdAt := 4 },
         { type := Src.review, id := 2, createdAt := 3 }]
    ∧ (getFeed dbFourReviews 2 2 none).pagination.total = 4
    ∧ (getFeed dbFourReviews 2 2 none).pagination.totalPages = 2
    ∧ ((reviewsFor dbFourReviews none).map Review.toItem).length = 4 := by
  refine ⟨?_, ?_, ?_, ?_, ?_⟩ <;>
    simp [getFeed, getFeedWithTrace, runMerge, mergeLoop, refillReview, refillComplaint,
      fetchReviewChunk, fetchComplaintChunk, reviewsFor, complaintsFor, dbFourReviews,
      reviewPred, complaintPred, Review.toItem, Complaint.toItem]

/-- C4: the claim that once a source returns an empty chunk the loop never
fetches that source again fails on the code: with an empty review source and
three complaints (`page = 1`, `limit = 1`), the initial review fetch returns
0 rows, yet the first loop iteration issues another review fetch at the same
cursor (third event of the trace). -/
theorem getFeed_refetches_exhausted_source :
    (getFeedWithTrace dbComplaintsOnly 1 1 none).2 =
      [{ src := Src.review, skip := 0, got := 0 },
       { src := Src.complaint, skip := 0, got := 1 },
       { src := Src.review, skip := 0, got := 0 }] := by
  simp [getFeedWithTrace, runMerge, mergeLoop, refillReview, refillComplaint,
    fetchReviewChunk, fetchComplaintChunk, reviewsFor, complaintsFor, dbComplaintsOnly,
    reviewPred, complaintPred, Review.toItem, Complaint.toItem]

/-- C5: the claim that the core fails fast with an InvalidArgument error on
`page < 1` fails on the code: at `page = 0` the service performs no
validation and returns an ordinary result envelope — the source has no throw
path at all, so the embedding is a total function. -/
theorem getFeed_invalid_page_returns_result :
    getFeed dbSingleComplaint 0 5 none =
      { items := [],
        pagination := { page := 0, limit := 5, total := 1, totalPages := 1 } } := by
  simp [getFeed, getFeedWithTrace, runMerge, mergeLoop, refillReview, refillComplaint,
    fetchReviewChunk, fetchComplaintChunk, reviewsFor, complaintsFor, dbSingleComplaint,
    reviewPred, complaintPred, Review.toItem, Complaint.toItem]

/-- Witness for the tie-break theorem at concrete equal-timestamp heads. -/
theorem getFeed_tie_break_fixed_priority_witness :
    mergeLoop dbEmpty none 20 1
        [{ type := Src.review, id := 1, createdAt := 5 }]
        [{ type := Src.complaint, id := 2, createdAt := 5 }] 1 1 [] [] =
      mergeLoop dbEmpty none 20 1
        [{ type := Src.review, id := 1, createdAt := 5 }] [] 1 1
        [{ type := Src.complaint, id := 2, createdAt := 5 }] []
    ∧ srcPriority Src.complaint < srcPriority Src.review :=
  getFeed_tie_break_fixed_priority dbEmpty none 20 1
    { type := Src.review, id := 1, createdAt := 5 }
    { type := Src.complaint, id := 2, createdAt := 5 }
    [] [] 1 1 [] [] rfl rfl rfl (by decide)

/-- Witness for determinism at a concrete store and argument pair. -/
theorem getFeed_deterministic_witness :
    getFeedWithTrace dbTie 1 2 (some "tech") = getFeedWithTrace dbTie 1 2 (some "tech") :=
  getFeed_deterministic dbTie 1 2 1 2 (some "tech") (some "tech") rfl rfl rfl

/-- Witness for the amended invalid-argument behaviour at `page = 0`,
`limit = 5`. -/
theorem getFeed_invalid_page_no_error_witness :
    1 ≤ 5 ∧ ((getFeed dbSingleComplaint 0 5 none).items = []
      ∧ (getFeed dbSingleComplaint 0 5 none).pagination.page = 0) :=
  ⟨by decide, getFeed_invalid_page_no_error dbSingleComplaint 5 none (by decide)⟩

/-- Witness for the empty-feed early return on an empty store. -/
theorem getFeed_empty_sources_witness :
    ((reviewsFor dbEmpty (some "x")).length = 0 ∧ (complaintsFor dbEmpty (some "x")).length = 0)
    ∧ getFeedWithTrace dbEmpty 3 7 (some "x") =
        ({ items := [],
           pagination := { page := 3, limit := 7, total := 0, totalPages := 0 } }, []) :=
  ⟨⟨rfl, rfl⟩, getFeed_empty_sources dbEmpty 3 7 (some "x") ⟨rfl, rfl⟩⟩

/-- Witness for the pagination arithmetic at a concrete store. -/
theorem getFeed_pagination_correct_witness :
    1 ≤ 2 ∧ ((getFeed dbFourReviews 1 2 none).pagination.total =
        (reviewsFor dbFourReviews none).length + (complaintsFor dbFourReviews none).length
      ∧ (getFeed dbFourReviews 1 2 none).pagination.total ≤
          (getFeed dbFourReviews 1 2 none).pagination.totalPages * 2
      ∧ (getFeed dbFourReviews 1 2 none).pagination.totalPages * 2 <
          (getFeed dbFourReviews 1 2 none).pagination.total + 2) :=
  ⟨by decide, getFeed_pagination_correct dbFourReviews 1 2 none (by decide)⟩

/-- Witness for the merge bounds at a concrete store. -/
theorem getFeed_merge_bounded_witness :
    (1 ≤ 1 ∧ 1 ≤ 1) ∧ ((runMerge dbTie none 1 (1 * 1)).1.length ≤ 1 * 1
      ∧ (runMerge dbTie none 1 (1 * 1)).1.length ≤
          (reviewsFor dbTie none).length + (complaintsFor dbTie none).length) :=
  ⟨⟨by decide, by decide⟩, getFeed_merge_bounded dbTie none 1 1 (by decide) (by decide)⟩

/-- Witness: the single served review item of a concrete store traces back
to an APPROVED stored review. -/
theorem getFeed_reviews_approved_complaints_any_witness :
    ∃ r, r ∈ dbSingleReview.reviews ∧ r.status = "APPROVED" ∧
      reviewPred none r = true ∧
      Review.toItem r = { type := Src.review, id := 9, createdAt := 5 } := by
  have hx : ({ type := Src.review, id := 9, createdAt := 5 } : FeedItem) ∈
      (getFeed dbSingleReview 1 20 none).items := by
    simp [getFeed, getFeedWithTrace, runMerge, mergeLoop, refillReview, refillComplaint,
      fetchReviewChunk, fetchComplaintChunk, reviewsFor, complaintsFor, dbSingleReview,
      reviewPred, complaintPred, Review.toItem, Complaint.toItem]
  exact (getFeed_reviews_approved_complaints_any dbSingleReview 1 20 none
    { type := Src.review, id := 9, createdAt := 5 } hx).1 rfl

/-- Witness for the controller clamping at concrete query strings. -/
theorem controller_clamps_args_witness :
    1 ≤ (controllerArgs none none).1
    ∧ 1 ≤ (controllerArgs none none).2
    ∧ (controllerArgs none none).2 ≤ 50
    ∧ 1 ≤ (controllerArgs (some "abc") (some "9999")).1
    ∧ 1 ≤ (controllerArgs (some "abc") (some "9999")).2
    ∧ (controllerArgs (some "abc") (some "9999")).2 ≤ 50 := by
  have h1 := controller_clamps_args dbEmpty none none none
  have h2 := controller_clamps_args dbEmpty (some "abc") (some "9999") none
  exact ⟨h1.1, h1.2.1, h1.2.2.1, h2.1, h2.2.1, h2.2.2.1⟩
